import Mathlib

/-!
Shallow embedding of the RAG orchestration core of the prc-law-kb repository:
token accounting (`countTokens`, `updateTokenUsage`, `checkTokenAvailability`),
vector retrieval (`generateSearchKeywords`, `generateEmbedding`, `searchDocuments`),
the qa streaming pipeline (`qaRun`), the consultant streaming pipeline
(`consultantStream`) with its tool-calling loop, and the access-control helpers
(`hasFeatureAccess`, `hasCredits`).  Strings of the TypeScript source are kept
verbatim; JavaScript strings are modelled by Lean `String` (a list of
characters), numbers by `Nat`/`Int`/`ℚ`, `undefined`-able values by `Option`,
thrown exceptions by `Except`, and the PostgreSQL tables touched by the code by
explicit record lists inside `DBState`.
-/

namespace PrcLaw

/-- `countTokens` from `src/lib/gemini.ts`: `Math.ceil(text.length / 4)` —
the explicitly approximate heuristic token estimate. -/
def countTokens (text : String) : Nat :=
  (text.length + 3) / 4

/-- JavaScript string truthiness for an `undefined`-able string:
`!s` is true exactly when `s` is `undefined` or the empty string. -/
def strTruthy (s : Option String) : Bool :=
  s.getD "" != ""

/-- Left trim, dropping leading whitespace (JS `String.prototype.trim`, left half). -/
def ltrim (cs : List Char) : List Char :=
  cs.dropWhile Char.isWhitespace

/-- Right trim, dropping trailing whitespace (JS `String.prototype.trim`, right half). -/
def rtrim (cs : List Char) : List Char :=
  (cs.reverse.dropWhile Char.isWhitespace).reverse

/-- JS `String.prototype.trim`: drop whitespace from both ends. -/
def trimChars (cs : List Char) : List Char :=
  rtrim (ltrim cs)

/-- `trim` on packed strings. -/
def trimStr (s : String) : String :=
  ⟨trimChars s.data⟩

/-- JS `text.split('\n')`: split a character list at every newline,
keeping empty segments. -/
def splitLines : List Char → List (List Char)
  | [] => [[]]
  | c :: cs =>
    if c = '\n' then [] :: splitLines cs
    else
      match splitLines cs with
      | [] => [[c]]
      | l :: ls => (c :: l) :: ls

/-- The keyword post-processing of `generateSearchKeywords`
(`src/lib/gemini.ts` lines 84–88):
`text.split('\n').map(k => k.trim()).filter(k => k.length > 0).slice(0, 5)`. -/
def keywordsOfText (t : String) : List String :=
  ((((splitLines t.data).map (fun cs => (⟨trimChars cs⟩ : String))).filter
    (fun s => s.length != 0)).take 5)

/-- A text-generation provider response as consumed by the non-tool-calling
call sites: `response.text` (possibly `undefined`) and
`response.usageMetadata?.totalTokenCount`. -/
structure GenTextResp where
  text : Option String
  usage : Option Nat
deriving DecidableEq, Repr

/-- `generateSearchKeywords` from `src/lib/gemini.ts`: calls the model with the
fixed keyword prompt (the provider's reply is the `resp` argument), throws when
`response.text` is falsy, otherwise returns the parsed keywords and the
provider-reported `totalTokenCount`. -/
def generateSearchKeywords (query : String) (resp : GenTextResp) :
    Except String (List String × Option Nat) :=
  let _ := query
  if strTruthy resp.text then
    .ok (keywordsOfText (resp.text.getD ""), resp.usage)
  else
    .error "Failed to generate search keywords"

/-- An embedding provider response: `response.embeddings?.[0]?.values`
(`none` models the `!response.embeddings || !response.embeddings[0] ||
!response.embeddings[0].values` guard firing) together with the token usage
the provider reports for the call.  The source never reads the reported
usage (its `countTokens` API call is commented out). -/
structure EmbedProviderResp where
  values : Option (List ℚ)
  reportedTokens : Option Nat
deriving DecidableEq, Repr

/-- `generateEmbedding` from `src/lib/gemini.ts`: throws on a missing
embedding, otherwise returns the vector and
`tokenCount: countTokens(text)` — the heuristic count, not the
provider-reported usage. -/
def generateEmbedding (text : String) (resp : EmbedProviderResp) :
    Except String (List ℚ × Nat) :=
  match resp.values with
  | none => .error "Failed to generate embedding"
  | some v => .ok (v, countTokens text)

/-- `generateLegalAnswer` from `src/lib/gemini.ts`: builds the grounding
prompt from the question and search results (both only feed the provider,
modelled by `resp`), throws when `response.text` is falsy, otherwise returns
the answer text and the provider-reported `totalTokenCount`. -/
def generateLegalAnswer (question : String) (resp : GenTextResp) :
    Except String (String × Option Nat) :=
  let _ := question
  if strTruthy resp.text then
    .ok (resp.text.getD "", resp.usage)
  else
    .error "Failed to generate legal answer"

/-- Feature kinds of the application (the union of the `'search' | 'qa' |
'consultant'` ledger type and the `'pro_model'` entitlement of
`hasFeatureAccess` in `src/lib/auth-client.ts`). -/
inductive FeatureKind
  | search
  | qa
  | consultant
  | pro_model
deriving DecidableEq, Repr

/-- User roles, from `src/lib/auth-client.ts`. -/
inductive UserRole
  | admin
  | free
  | pay
  | vip
deriving DecidableEq, Repr

/-- A `user_credits` row (`total_tokens`, `used_tokens`, `remaining_tokens`). -/
structure CreditsRow where
  total_tokens : Int
  used_tokens : Int
  remaining_tokens : Int
deriving DecidableEq, Repr

/-- The slice of the authenticated user profile read by the access checks. -/
structure AuthUser where
  role : UserRole
  credits : CreditsRow
deriving DecidableEq, Repr

/-- `hasCredits` from `src/lib/auth-client.ts`: admin users bypass the check,
everyone else needs `remaining_tokens >= requiredCredits`. -/
def hasCredits (user : AuthUser) (requiredCredits : Int) : Bool :=
  if user.role = .admin then true
  else user.credits.remaining_tokens ≥ requiredCredits

/-- `hasTokens` from `src/lib/auth-client.ts` (alias for `hasCredits`). -/
def hasTokens (user : AuthUser) (requiredTokens : Int) : Bool :=
  hasCredits user requiredTokens

/-- `hasFeatureAccess` from `src/lib/auth-client.ts`. -/
def hasFeatureAccess (user : AuthUser) (feature : FeatureKind) : Bool :=
  match feature with
  | .search => true
  | .qa => true
  | .consultant => user.role ≠ .free
  | .pro_model => user.role = .vip

/-- `canUseProModel` from `src/lib/auth-client.ts`. -/
def canUseProModel (user : AuthUser) : Bool :=
  hasFeatureAccess user .pro_model

/-- A `token_usage` ledger row (`user_id`, `feature_type`, `tokens_used`). -/
structure TokenUsageRow where
  user_id : String
  feature_type : FeatureKind
  tokens_used : Int
deriving DecidableEq, Repr

/-- A `qa_history` row. -/
structure QAHistoryRow where
  user_id : String
  question : String
  answer : String
  document_ids : List Int
  tokens_used : Nat
deriving DecidableEq, Repr

/-- A `consultant_conversations` row. -/
structure ConvRow where
  id : String
  user_id : String
  title : String
  model_used : String
  total_tokens : Int
deriving DecidableEq, Repr

/-- A `consultant_messages` row. -/
structure MsgRow where
  conversation_id : String
  role : String
  content : String
  document_ids : Option (List Int)
  tokens_used : Int
  created_at : String
deriving DecidableEq, Repr

/-- The PostgreSQL tables touched by the orchestration core.  `user_credits`
is keyed by `user_id` (one row per user, created by the auth flow). -/
structure DBState where
  user_credits : List (String × CreditsRow)
  token_usage : List TokenUsageRow
  qa_history : List QAHistoryRow
  conversations : List ConvRow
  consultant_messages : List MsgRow
deriving DecidableEq, Repr

/-- First keyed row of an association list. -/
def lookupRows : List (String × CreditsRow) → String → Option CreditsRow
  | [], _ => none
  | p :: t, uid => if p.1 = uid then some p.2 else lookupRows t uid

/-- `SELECT ... FROM user_credits WHERE user_id = $1` on the modelled state. -/
def lookupCredits (st : DBState) (uid : String) : Option CreditsRow :=
  lookupRows st.user_credits uid

/-- The `SET used_tokens = used_tokens + n, remaining_tokens =
remaining_tokens - n` row update of `updateTokenUsage`. -/
def bumpCredits (n : Int) (c : CreditsRow) : CreditsRow :=
  { c with used_tokens := c.used_tokens + n,
           remaining_tokens := c.remaining_tokens - n }

/-- `updateTokenUsage` from `src/lib/database-new.ts` (lines 413–448), run
inside `db.transaction`: `UPDATE user_credits SET used_tokens = used_tokens
+ $1, remaining_tokens = remaining_tokens - $1 WHERE user_id = $2 RETURNING
remaining_tokens`; throws `'User credits not found'` when no row matched
(the transaction then rolls back); otherwise `INSERT INTO token_usage ...`
and return the new remaining balance. -/
def updateTokenUsage (st : DBState) (uid : String) (feature : FeatureKind)
    (tokensUsed : Int) : Except String (Int × DBState) :=
  match lookupCredits st uid with
  | none => .error "User credits not found"
  | some row =>
    let credits := st.user_credits.map (fun p =>
      if p.1 = uid then (p.1, bumpCredits tokensUsed p.2) else p)
    .ok (row.remaining_tokens - tokensUsed,
      { st with user_credits := credits,
                token_usage := st.token_usage ++ [⟨uid, feature, tokensUsed⟩] })

/-- The caller-visible effect of `updateTokenUsage` including the
`ROLLBACK`-on-throw semantics of `db.transaction`: on error the store is
unchanged. -/
def runUpdateTokenUsage (st : DBState) (uid : String) (feature : FeatureKind)
    (tokensUsed : Int) : Except String Int × DBState :=
  match updateTokenUsage st uid feature tokensUsed with
  | .error e => (.error e, st)
  | .ok (r, st') => (.ok r, st')

/-- `saveQAHistory` from `src/lib/database-new.ts`: one `INSERT INTO
qa_history`. -/
def saveQAHistory (st : DBState) (uid question answer : String)
    (documentIds : List Int) (tokensUsed : Nat) : DBState :=
  { st with qa_history :=
      st.qa_history ++ [⟨uid, question, answer, documentIds, tokensUsed⟩] }

/-- Metadata of a stored document chunk, as read by the pipelines
(`law_id`, `title`, `loc.lines.from`, `loc.lines.to`, plus whatever else the
ingestion wrote — irrelevant here). -/
structure DocMeta where
  law_id : String
  title : String
  lineFrom : Nat
  lineTo : Nat
deriving DecidableEq, Repr

/-- A row of the `documents` table: id, content, metadata and the stored
embedding vector. -/
structure StoredDoc where
  id : Int
  content : String
  metadata : DocMeta
  emb : List ℚ
deriving DecidableEq, Repr

/-- A `searchDocuments` result row (`DocumentResult` in
`src/lib/database-new.ts`). -/
structure DocResult where
  id : Int
  content : String
  metadata : DocMeta
  similarity : ℚ
deriving DecidableEq, Repr

/-- `searchDocuments` from `src/lib/database-new.ts` (lines 122–148):
`SELECT id, content, metadata, 1 - (embedding <=> $1) AS similarity FROM
documents WHERE metadata @> $3 ORDER BY embedding <=> $1 LIMIT $2`.
The pgvector cosine-distance operator `<=>` is abstracted as the `cosDist`
argument (it is query-relative and real-valued; the SQL engine evaluates it
pointwise per row), the jsonb containment filter `@>` as the `metaFilter`
predicate (both call sites pass the empty filter `{}`, i.e. the constant
true predicate). -/
def searchDocuments (cosDist : List ℚ → List ℚ → ℚ) (docs : List StoredDoc)
    (embedding : List ℚ) (matchCount : Nat) (metaFilter : DocMeta → Bool) :
    List DocResult :=
  let rows := docs.filter (fun d => metaFilter d.metadata)
  let sorted := @List.insertionSort StoredDoc
    (fun a b => cosDist embedding a.emb ≤ cosDist embedding b.emb)
    (fun a b => inferInstanceAs (Decidable (cosDist embedding a.emb ≤ cosDist embedding b.emb)))
    rows
  (sorted.take matchCount).map (fun d =>
    ⟨d.id, d.content, d.metadata, 1 - cosDist embedding d.emb⟩)

/-- A server-sent stream event, as enqueued by the `send` helpers of the qa
and consultant routes. -/
inductive SEvent
  | step (content : String)
  | error (content : String)
  | answer_chunk (content : String)
  | response_chunk (content : String)
  | sources (content : List DocResult)
  | tokens (tokens_used : Nat) (remaining_tokens : Int)
  | completion (conversationId : String) (tokens_used : Nat) (remaining_tokens : Int)
deriving DecidableEq, Repr

/-- The provider replies consumed by one qa request: the keyword-generation
call, the embedding call, and the answer-generation call. -/
structure QAOracle where
  kwResp : GenTextResp
  embedResp : EmbedProviderResp
  ansResp : GenTextResp
deriving DecidableEq, Repr

/-- The observable outcome of the qa stream: the events enqueued in order,
how many times `generateLegalAnswer` was invoked, and the resulting store. -/
structure QAOut where
  events : List SEvent
  synthCalls : Nat
  state : DBState
deriving DecidableEq, Repr

/-- The streaming body of the qa route (`src/app/api/qa/route.ts` lines
76–128): generate keywords, embed their space-joined concatenation, search
with limit 20, bail out with a single error event on an empty result set,
otherwise synthesize the answer, debit the actual token total
(`?? 0` on each reported count) and persist the qa history.  Any thrown
error is caught and surfaced as the generic `'AI 處理失敗'` event; the
stream is closed in every branch. -/
def qaRun (o : QAOracle) (cosDist : List ℚ → List ℚ → ℚ)
    (docs : List StoredDoc) (st : DBState) (uid question : String) : QAOut :=
  let events := [SEvent.step "正在生成搜尋關鍵字..."]
  match generateSearchKeywords question o.kwResp with
  | .error _ => ⟨events ++ [.error "AI 處理失敗"], 0, st⟩
  | .ok (keywords, kwTok) =>
    let events := events ++ [SEvent.step "正在生成嵌入向量以用於搜尋..."]
    match generateEmbedding (String.intercalate " " keywords) o.embedResp with
    | .error _ => ⟨events ++ [.error "AI 處理失敗"], 0, st⟩
    | .ok (embedding, embTok) =>
      let events := events ++ [SEvent.step "正在搜尋文件..."]
      let searchResults := searchDocuments cosDist docs embedding 20 (fun _ => true)
      if searchResults.isEmpty then
        ⟨events ++ [.error "找不到與您的問題相關的法律文件"], 0, st⟩
      else
        let events := events ++ [SEvent.step "正在生成 AI 答案..."]
        match generateLegalAnswer question o.ansResp with
        | .error _ => ⟨events ++ [.error "AI 處理失敗"], 1, st⟩
        | .ok (answer, ansTok) =>
          let events := events ++
            [SEvent.answer_chunk answer, SEvent.sources searchResults]
          let actualTokens := kwTok.getD 0 + embTok + ansTok.getD 0
          match updateTokenUsage st uid .qa (actualTokens : Int) with
          | .error _ => ⟨events ++ [.error "AI 處理失敗"], 1, st⟩
          | .ok (remaining, st1) =>
            let st2 := saveQAHistory st1 uid question answer
              (searchResults.map (fun r => r.id)) actualTokens
            ⟨events ++ [SEvent.tokens actualTokens remaining], 1, st2⟩

/-- A message of the client-side conversation history
(`fullConversationHistory` entries in the consultant route). -/
structure HistMsg where
  role : String
  content : String
  documents_ids : Option (List Int)
  tokens_used : Option Int
  timestamp : String
deriving DecidableEq, Repr

/-- JS `messages.slice(-2)`: the last two messages (all of them when fewer). -/
def lastTwo (l : List HistMsg) : List HistMsg :=
  l.drop (l.length - 2)

/-- The message-insert block of `saveConversation`: skip when the history is
empty, otherwise `INSERT INTO consultant_messages` one row per message of
`messages.slice(-2)`. -/
def insertMessages (st : DBState) (cid : String) (messages : List HistMsg) :
    DBState :=
  if messages.isEmpty then st
  else
    let rows := (lastTwo messages).map (fun m =>
      (⟨cid, m.role, m.content, m.documents_ids, m.tokens_used.getD 0,
        m.timestamp⟩ : MsgRow))
    { st with consultant_messages := st.consultant_messages ++ rows }

/-- `saveConversation` from `src/lib/database-new.ts` (lines 263–335), run
inside one `db.transaction`: with a conversation id, update the owned
conversation (`COALESCE` keeps old totals/model on `null`) or throw
`'Conversation not found or access denied'`; without one, insert a fresh
conversation (title falling back to `'對話 <date>'`, model to the flash
default, total to 0).  Then append `messages.slice(-2)`.  The database
generates the fresh id; it is modelled here by a row-count surrogate, the
id value itself is never relied upon. -/
def saveConversation (st : DBState) (uid : String)
    (conversationId : Option String) (messages : List HistMsg)
    (title : Option String) (totalTokens : Option Int)
    (modelUsed : Option String) (now : String) :
    Except String (String × DBState) :=
  match conversationId with
  | some cid =>
    match st.conversations.find? (fun c => c.id == cid && c.user_id == uid) with
    | none => .error "Conversation not found or access denied"
    | some _ =>
      let convs := st.conversations.map (fun c =>
        if c.id == cid && c.user_id == uid then
          { c with total_tokens := totalTokens.getD c.total_tokens,
                   model_used := modelUsed.getD c.model_used }
        else c)
      .ok (cid, insertMessages { st with conversations := convs } cid messages)
  | none =>
    let convTitle := title.getD ("對話 " ++ now)
    let newId := "conv-" ++ toString st.conversations.length
    let row : ConvRow :=
      ⟨newId, uid, convTitle, modelUsed.getD "gemini-2.5-flash-preview-05-20",
        totalTokens.getD 0⟩
    .ok (newId,
      insertMessages { st with conversations := st.conversations ++ [row] }
        newId messages)

/-- A function call requested by the model (`@google/genai`
`FunctionCall`): the tool name and its `keywords` argument. -/
structure FunctionCall where
  name : String
  keywords : String
deriving DecidableEq, Repr

/-- A tool-capable generation response as consumed by the consultant route:
`response.text`, `response.functionCalls` (the SDK getter returns
`undefined` when the candidate parts carry no function call, so the
`while (response.functionCalls)` condition is `isSome`; the same parts also
feed the `functionCallsArray` extraction) and
`response.usageMetadata?.totalTokenCount`. -/
structure GenResponse where
  text : Option String
  functionCalls : Option (List FunctionCall)
  usage : Option Nat
deriving DecidableEq, Repr

/-- Everything fixed for the duration of one consultant request: the
provider environment (embedding replies indexed by call order, the
abstracted cosine distance, the documents table), the initial store, and
the request parameters. -/
structure CCtx where
  embeds : Nat → EmbedProviderResp
  cosDist : List ℚ → List ℚ → ℚ
  docs : List StoredDoc
  st0 : DBState
  uid : String
  message : String
  conversationId : Option String
  history0 : List HistMsg
  useProModel : Bool
  now : String

/-- The mutable state of the consultant tool-calling loop:
`totalTokenUsage`, the collected `documents_ids`, the number of embedding
calls made so far (indexing `CCtx.embeds`), and the events enqueued so far. -/
structure LoopSt where
  total : Nat
  docIds : List Int
  embedIdx : Nat
  events : List SEvent
deriving DecidableEq, Repr

/-- The observable outcome of the consultant stream: a terminal
`completed`/`failed` state, or `stillLooping`, meaning the request consumed
the whole finite model script with the `while (response.functionCalls)`
condition still true — the loop body would run again (the source has no
iteration cap, so no terminal state is ever reached on such a script). -/
inductive COutcome
  | completed (events : List SEvent) (finalTokens : Nat) (state : DBState)
      (docIds : List Int)
  | failed (events : List SEvent) (state : DBState)
  | stillLooping (events : List SEvent)
deriving DecidableEq, Repr

/-- The per-iteration tool-call processing of the consultant route (lines
434–471 of the route): for each call named `searchPRCLegalKnowledgeBase`,
embed its keywords (a throw propagates, carrying the events emitted so
far), add `tokenCount || 0` to the running total, search with limit 20,
emit the no-result warning event or collect the returned ids. -/
def processCalls (ctx : CCtx) : List FunctionCall → LoopSt →
    Except (List SEvent) LoopSt
  | [], s => .ok s
  | fc :: rest, s =>
    if fc.name = "searchPRCLegalKnowledgeBase" then
      let s1 : LoopSt :=
        { s with events := s.events ++ [SEvent.step "正在生成嵌入向量以用於搜尋..."] }
      match generateEmbedding fc.keywords (ctx.embeds s1.embedIdx) with
      | .error _ => .error s1.events
      | .ok (embedding, tok) =>
        let s2 : LoopSt :=
          { s1 with total := s1.total + tok,
                    embedIdx := s1.embedIdx + 1,
                    events := s1.events ++ [SEvent.step "正在搜尋文件..."] }
        let searchResults := searchDocuments ctx.cosDist ctx.docs embedding 20
          (fun _ => true)
        if searchResults.isEmpty then
          processCalls ctx rest
            { s2 with events :=
                s2.events ++ [SEvent.error "找不到與您的問題相關的法律文件"] }
        else
          processCalls ctx rest
            { s2 with docIds := s2.docIds ++ searchResults.map (fun r => r.id) }
    else
      processCalls ctx rest s

/-- The post-loop tail of the consultant route (lines 501–552): throw on a
falsy final text (caught as the generic error event), stream the final
text, apply the 10x pro surcharge, append the assistant message, debit via
`updateTokenUsage` (a throw is caught as the generic error event, the
transaction having rolled back), attempt `saveConversation` with the
`'temp-' + Date.now()` fallback id on failure, and emit the completion
event. -/
def finishTurn (ctx : CCtx) (r : GenResponse) (s : LoopSt) : COutcome :=
  if strTruthy r.text then
    let events := s.events ++ [SEvent.response_chunk (r.text.getD "")]
    let finalTokens := if ctx.useProModel then s.total * 10 else s.total
    let hist := ctx.history0 ++
      [⟨"user", ctx.message, none, none, ctx.now⟩,
       ⟨"assistant", r.text.getD "", some s.docIds, some (finalTokens : Int),
        ctx.now⟩]
    match updateTokenUsage ctx.st0 ctx.uid .consultant (finalTokens : Int) with
    | .error _ => .failed (events ++ [SEvent.error "AI 處理失敗"]) ctx.st0
    | .ok (remaining, st1) =>
      let modelName := if ctx.useProModel then "pro" else "flash"
      let title := if hist.length = 2
        then some ("諮詢: " ++ ctx.message.take 50 ++ "...") else none
      let saved :=
        match saveConversation st1 ctx.uid ctx.conversationId hist title
          (some (finalTokens : Int)) (some modelName) ctx.now with
        | .ok (cid, st2) => (cid, st2)
        | .error _ => (ctx.conversationId.getD ("temp-" ++ ctx.now), st1)
      .completed (events ++ [SEvent.completion saved.1 finalTokens remaining])
        finalTokens saved.2 s.docIds
  else
    .failed (s.events ++ [SEvent.error "AI 處理失敗"]) ctx.st0

/-- The `while (response.functionCalls)` loop of the consultant route (lines
400–496), consuming the model script one response per re-invocation: while
the current response carries function calls, stream its narrative text with
the `"\n---\n"` separator, process the calls, and continue with the next
scripted response, accumulating its `totalTokenCount ?? 0`; when the script
runs out with the condition still true, the outcome is `stillLooping`. -/
def consultLoop (ctx : CCtx) : GenResponse → List GenResponse → LoopSt → COutcome
  | r, rest, s =>
    match r.functionCalls with
    | none => finishTurn ctx r s
    | some fcs =>
      let s1 : LoopSt :=
        if strTruthy r.text then
          { s with events :=
              s.events ++ [SEvent.response_chunk (r.text.getD "" ++ "\n---\n")] }
        else s
      let s2 : LoopSt :=
        { s1 with events := s1.events ++ [SEvent.step "正在處理函數調用請求..."] }
      match processCalls ctx fcs s2 with
      | .error evs => .failed (evs ++ [SEvent.error "AI 處理失敗"]) ctx.st0
      | .ok s3 =>
        let s4 : LoopSt :=
          { s3 with events := s3.events ++ [SEvent.step "正在生成回應..."] }
        match rest with
        | [] => .stillLooping s4.events
        | r2 :: rest2 =>
          consultLoop ctx r2 rest2 { s4 with total := s4.total + r2.usage.getD 0 }

/-- The streaming body of the consultant route (`POST` handler, lines
351–560): emit the two initial step events, append the user message to the
client-supplied history, make the first model call (the head of the
script), seed the running total with its reported usage, and enter the
tool-calling loop.  An empty script means the model oracle was never able
to answer: no terminal state is reached. -/
def consultantStream (ctx : CCtx) (script : List GenResponse) : COutcome :=
  let events := [SEvent.step "正在處理輸入...", SEvent.step "正在生成回應..."]
  match script with
  | [] => .stillLooping events
  | r0 :: rest =>
    consultLoop ctx r0 rest
      { total := r0.usage.getD 0, docIds := [], embedIdx := 0, events := events }

/-- The pre-stream validation of the consultant route (lines 314–347), in
source order: feature access, message presence/trim, length cap 2000, pro
model entitlement, and the heuristic token pre-check
(`countTokens(message) + 5000`).  Errors are returned as
`(status, message)` before the stream — and hence before any model call —
is created. -/
def consultantPOST (user : AuthUser) (ctx : CCtx) (script : List GenResponse) :
    Except (Nat × String) COutcome :=
  if ¬ hasFeatureAccess user .consultant then
    .error (403, "存取遭拒 - 顧問功能需要付費訂閱")
  else if ctx.message = "" ∨ trimStr ctx.message = "" then
    .error (400, "訊息是必需的")
  else if ctx.message.length > 2000 then
    .error (400, "訊息太長 (最多 2000 個字元)")
  else if ctx.useProModel ∧ ¬ canUseProModel user then
    .error (403, "Pro 模型存取需要 VIP 訂閱")
  else if ¬ hasTokens user ((countTokens ctx.message : Int) + 5000) then
    .error (402, "代幣不足")
  else
    .ok (consultantStream ctx script)

/-- `response.usageMetadata?.totalTokenCount ?? 0`. -/
def respUsage (r : GenResponse) : Nat :=
  r.usage.getD 0

/-- The embedding-call cost a list of tool calls contributes to
`totalTokenUsage`: one `generateEmbedding` per `searchPRCLegalKnowledgeBase`
call, each reporting `countTokens` of its keywords. -/
def fcEmbedTokens (fcs : List FunctionCall) : Nat :=
  ((fcs.filter (fun fc => decide (fc.name = "searchPRCLegalKnowledgeBase"))).map
    (fun fc => countTokens fc.keywords)).sum

/-- The token cost one tool-calling model response contributes to the
running total: its own reported usage plus the embedding calls it triggers. -/
def iterTokens (r : GenResponse) : Nat :=
  respUsage r + fcEmbedTokens (r.functionCalls.getD [])

/-- Accumulated cost of a chain of tool-calling responses. -/
def chainTokens (chain : List GenResponse) : Nat :=
  (chain.map iterTokens).sum

/-- The raw (pre-surcharge) token total of one consultant turn whose model
calls are the tool-calling `chain` followed by the final answer `last`. -/
def rawTurnTokens (chain : List GenResponse) (last : GenResponse) : Nat :=
  chainTokens chain + respUsage last

/-- The 10x pro-tier surcharge: `useProModel ? total * 10 : total`. -/
@[reducible] def proSurcharge (pro : Bool) (n : Nat) : Nat :=
  if pro then n * 10 else n

/-! Concrete example data used by the witness and counterexample theorems. -/

/-- An empty store. -/
def emptyDB : DBState := ⟨[], [], [], [], []⟩

/-- A provider embedding reply with one value and no reported usage. -/
def oneVec : EmbedProviderResp := ⟨some [1], none⟩

/-- A distance assignment that makes every row equidistant. -/
def zeroDist : List ℚ → List ℚ → ℚ := fun _ _ => 0

/-- A minimal consultant request context over an empty store. -/
def dummyCtx : CCtx :=
  ⟨fun _ => oneVec, zeroDist, [], emptyDB, "u", "問", none, [], false, "t"⟩

/-- A model response that always requests one knowledge-base search. -/
def toolResp : GenResponse :=
  ⟨some "思", some [⟨"searchPRCLegalKnowledgeBase", "刑法"⟩], some 100⟩

/-- A store with one credited principal. -/
def c2st : DBState := ⟨[("u", ⟨100, 20, 80⟩)], [], [], [], []⟩

/-- A store with one credited principal holding 100 remaining tokens. -/
def c3st : DBState := ⟨[("u", ⟨200, 100, 100⟩)], [], [], [], []⟩

/-- A consultant request context using the pro tier over `c3st`. -/
def c3ctx : CCtx :=
  ⟨fun _ => oneVec, zeroDist, [], c3st, "u", "問", none, [], true, "t"⟩

/-- A tool-calling first response. -/
def c3r0 : GenResponse :=
  ⟨some "思", some [⟨"searchPRCLegalKnowledgeBase", "關"⟩], some 40⟩

/-- A final, tool-free response. -/
def c3last : GenResponse := ⟨some "答", none, some 60⟩

/-- A distance assignment reading the stored vector's head. -/
def c4dist : List ℚ → List ℚ → ℚ := fun _ e => e.headD 0

/-- Two stored documents at distances 2 and 1 under `c4dist`. -/
def c4docs : List StoredDoc :=
  [⟨1, "甲", ⟨"L1", "T1", 1, 2⟩, [2]⟩, ⟨2, "乙", ⟨"L2", "T2", 3, 4⟩, [1]⟩]

/-- A qa oracle whose retrieval will find nothing (no documents stored). -/
def c5oracle : QAOracle := ⟨⟨some "甲", none⟩, oneVec, ⟨none, none⟩⟩

/-- A qa oracle for a fully successful run: keyword call reports 7 tokens,
the embedding provider reports 1000 tokens (which the code ignores), the
answer call reports 5 tokens. -/
def c9oracle : QAOracle :=
  ⟨⟨some "甲\n乙", some 7⟩, ⟨some [1], some 1000⟩, ⟨some "答", some 5⟩⟩

/-- One stored document matching everything under `zeroDist`. -/
def c9docs : List StoredDoc := [⟨3, "法", ⟨"law1", "題", 1, 2⟩, [1]⟩]

/-- A store with one credited principal. -/
def c9st : DBState := ⟨[("u", ⟨100, 0, 100⟩)], [], [], [], []⟩

/-- A store whose one principal has only 5 remaining tokens. -/
def c10st : DBState := ⟨[("u", ⟨100, 95, 5⟩)], [], [], [], []⟩

/-- A free-role user. -/
def c8user : AuthUser := ⟨.free, ⟨100000, 0, 100000⟩⟩

/-! ## Theorems -/

/-- Helper: the row update of `updateTokenUsage` commutes with the keyed
lookup. -/
theorem lookupRows_map_bump (uid : String) (n : Int) :
    ∀ l : List (String × CreditsRow),
      lookupRows (l.map (fun p =>
        if p.1 = uid then (p.1, bumpCredits n p.2) else p)) uid =
        (lookupRows l uid).map (bumpCredits n) := by
  intro l
  induction l with
  | nil => rfl
  | cons a t ih =>
    by_cases hb : a.1 = uid
    · simp [lookupRows, hb]
    · simp [lookupRows, hb, ih]

/-- Helper: the full effect of a successful `updateTokenUsage` debit. -/
theorem updateTokenUsage_spec (st : DBState) (uid : String) (f : FeatureKind)
    (n : Int) (row : CreditsRow) (h : lookupCredits st uid = some row) :
    ∃ st', updateTokenUsage st uid f n = .ok (row.remaining_tokens - n, st') ∧
      lookupCredits st' uid =
        some ⟨row.total_tokens, row.used_tokens + n, row.remaining_tokens - n⟩ ∧
      st'.token_usage = st.token_usage ++ [⟨uid, f, n⟩] ∧
      st'.qa_history = st.qa_history ∧
      st'.conversations = st.conversations ∧
      st'.consultant_messages = st.consultant_messages := by
  have hres : updateTokenUsage st uid f n = .ok (row.remaining_tokens - n,
      { st with
        user_credits := st.user_credits.map (fun p =>
          if p.1 = uid then (p.1, bumpCredits n p.2) else p),
        token_usage := st.token_usage ++ [⟨uid, f, n⟩] }) := by
    unfold updateTokenUsage
    rw [h]
  refine ⟨_, hres, ?_, rfl, rfl, rfl, rfl⟩
  unfold lookupCredits at h ⊢
  dsimp only
  rw [lookupRows_map_bump, h]
  rfl

/-- C2: a debit on a credited principal subtracts exactly `n` from the
remaining balance, adds exactly `n` to the used total, and appends exactly
one ledger entry, all within the single `db.transaction`; the other tables
are untouched.  (The source performs this unconditionally on the row, so
the property holds for every role; the claim's "not using the unlimited
role" instance is a special case.) -/
theorem updateTokenUsage_debit_exact (st : DBState) (uid : String)
    (f : FeatureKind) (n : Int) (row : CreditsRow)
    (h : lookupCredits st uid = some row) :
    ∃ st', updateTokenUsage st uid f n = .ok (row.remaining_tokens - n, st') ∧
      lookupCredits st' uid =
        some ⟨row.total_tokens, row.used_tokens + n, row.remaining_tokens - n⟩ ∧
      st'.token_usage = st.token_usage ++ [⟨uid, f, n⟩] ∧
      st'.qa_history = st.qa_history ∧
      st'.conversations = st.conversations ∧
      st'.consultant_messages = st.consultant_messages :=
  updateTokenUsage_spec st uid f n row h

/-- C2 witness: debiting 30 tokens from a principal holding 80 leaves 50,
bumps the used total from 20 to 50, and appends the one ledger entry. -/
theorem updateTokenUsage_debit_exact_witness :
    ∃ st', updateTokenUsage c2st "u" .search 30 = .ok (80 - 30, st') ∧
      lookupCredits st' "u" = some ⟨100, 20 + 30, 80 - 30⟩ ∧
      st'.token_usage = c2st.token_usage ++ [⟨"u", .search, 30⟩] ∧
      st'.qa_history = c2st.qa_history ∧
      st'.conversations = c2st.conversations ∧
      st'.consultant_messages = c2st.consultant_messages :=
  updateTokenUsage_debit_exact c2st "u" .search 30 ⟨100, 20, 80⟩ (by decide)

/-- C6: a debit for a principal with no credit record throws
`'User credits not found'`; the transaction rolls back, so the store — in
particular the ledger — is unchanged. -/
theorem updateTokenUsage_account_not_found (st : DBState) (uid : String)
    (f : FeatureKind) (n : Int) (h : lookupCredits st uid = none) :
    runUpdateTokenUsage st uid f n = (.error "User credits not found", st) := by
  unfold runUpdateTokenUsage updateTokenUsage
  rw [h]

/-- C6 witness: the empty store has no credit record for `"u"`. -/
theorem updateTokenUsage_account_not_found_witness :
    runUpdateTokenUsage emptyDB "u" .qa 5 = (.error "User credits not found", emptyDB) :=
  updateTokenUsage_account_not_found emptyDB "u" .qa 5 (by decide)

/-- C10: `updateTokenUsage` never checks the remaining balance — it succeeds
for every principal that has a credit record, whatever the debit amount, and
returns `remaining_before - n` even when that is negative.  The only balance
gate in the source is the heuristic `hasTokens` pre-check performed before
the pipeline runs. -/
theorem updateTokenUsage_no_balance_gate (st : DBState) (uid : String)
    (f : FeatureKind) (n : Int) (row : CreditsRow)
    (h : lookupCredits st uid = some row) :
    ∃ st', updateTokenUsage st uid f n = .ok (row.remaining_tokens - n, st') := by
  obtain ⟨st', h1, -⟩ := updateTokenUsage_spec st uid f n row h
  exact ⟨st', h1⟩

/-- C10 witness: a principal holding 5 remaining tokens is debited 10 and
ends at a negative balance of -5; no error is raised. -/
theorem updateTokenUsage_no_balance_gate_witness :
    ∃ st', updateTokenUsage c10st "u" .qa 10 = .ok (-5, st') := by
  have h := updateTokenUsage_no_balance_gate c10st "u" .qa 10 ⟨100, 95, 5⟩ (by decide)
  simpa using h

/-- C8: a `free`-role principal calling the consultant endpoint is rejected
with the 403 access-denied response by the very first check of the handler —
before the response stream (and with it any model call) is created. -/
theorem consultantPOST_free_denied (user : AuthUser) (ctx : CCtx)
    (script : List GenResponse) (h : user.role = .free) :
    consultantPOST user ctx script =
      .error (403, "存取遭拒 - 顧問功能需要付費訂閱") := by
  unfold consultantPOST
  have hacc : hasFeatureAccess user .consultant = false := by
    unfold hasFeatureAccess
    simp [h]
  rw [hacc]
  simp

/-- C8 witness: the concrete free user is denied. -/
theorem consultantPOST_free_denied_witness :
    consultantPOST c8user dummyCtx [] =
      .error (403, "存取遭拒 - 顧問功能需要付費訂閱") :=
  consultantPOST_free_denied c8user dummyCtx [] rfl

/-- C5: when keyword generation and embedding succeed but the vector search
returns no rows, the qa stream emits exactly the three step events followed
by one `'找不到與您的問題相關的法律文件'` error event and closes:
`generateLegalAnswer` is never invoked and the store is untouched (no debit,
no history row). -/
theorem qaRun_empty_results (o : QAOracle) (cosDist : List ℚ → List ℚ → ℚ)
    (docs : List StoredDoc) (st : DBState) (uid question : String)
    (hkw : strTruthy o.kwResp.text = true) (v : List ℚ)
    (hemb : o.embedResp.values = some v)
    (hsearch : searchDocuments cosDist docs v 20 (fun _ => true) = []) :
    qaRun o cosDist docs st uid question =
      ⟨[SEvent.step "正在生成搜尋關鍵字...",
        SEvent.step "正在生成嵌入向量以用於搜尋...",
        SEvent.step "正在搜尋文件...",
        SEvent.error "找不到與您的問題相關的法律文件"], 0, st⟩ := by
  unfold qaRun generateSearchKeywords generateEmbedding
  rw [hkw, hemb]
  simp only []
  rw [hsearch]
  rfl

/-- C5 witness: an empty documents table yields the empty-result branch. -/
theorem qaRun_empty_results_witness :
    qaRun c5oracle zeroDist [] emptyDB "u" "問" =
      ⟨[SEvent.step "正在生成搜尋關鍵字...",
        SEvent.step "正在生成嵌入向量以用於搜尋...",
        SEvent.step "正在搜尋文件...",
        SEvent.error "找不到與您的問題相關的法律文件"], 0, emptyDB⟩ :=
  qaRun_empty_results c5oracle zeroDist [] emptyDB "u" "問" (by decide) [1]
    (by decide) (by decide)

/-- Helper: the head surviving `dropWhile p` fails `p`. -/
theorem head?_dropWhile_false (p : Char → Bool) :
    ∀ (l : List Char) (c : Char), (l.dropWhile p).head? = some c → p c = false := by
  intro l
  induction l with
  | nil => intro c h; simp [List.dropWhile] at h
  | cons a t ih =>
    intro c h
    cases hp : p a with
    | true =>
      rw [List.dropWhile_cons, if_pos hp] at h
      exact ih c h
    | false =>
      rw [List.dropWhile_cons, if_neg (by simp [hp])] at h
      simp only [List.head?_cons, Option.some.injEq] at h
      rw [← h]
      exact hp

/-- Helper: `dropWhile` keeps a list whose head fails `p`. -/
theorem dropWhile_eq_self_of_head (p : Char → Bool) (l : List Char)
    (h : ∀ c, l.head? = some c → p c = false) : l.dropWhile p = l := by
  cases l with
  | nil => rfl
  | cons a t =>
    rw [List.dropWhile_cons, if_neg]
    simp [h a rfl]

/-- Helper: `dropWhile` removes an initial segment. -/
theorem dropWhile_drops_initial (p : Char → Bool) :
    ∀ l : List Char, ∃ s, l = s ++ l.dropWhile p := by
  intro l
  induction l with
  | nil => exact ⟨[], rfl⟩
  | cons a t ih =>
    cases hp : p a with
    | true =>
      obtain ⟨s, hs⟩ := ih
      refine ⟨a :: s, ?_⟩
      rw [List.dropWhile_cons, if_pos hp, List.cons_append, ← hs]
    | false =>
      refine ⟨[], ?_⟩
      rw [List.dropWhile_cons, if_neg (by simp [hp]), List.nil_append]

/-- Helper: `rtrim` keeps an initial segment of its input. -/
theorem rtrim_keeps_initial (l : List Char) : ∃ t, l = rtrim l ++ t := by
  obtain ⟨s, hs⟩ := dropWhile_drops_initial Char.isWhitespace l.reverse
  refine ⟨s.reverse, ?_⟩
  unfold rtrim
  calc l = l.reverse.reverse := (List.reverse_reverse l).symm
    _ = (s ++ l.reverse.dropWhile Char.isWhitespace).reverse := by rw [← hs]
    _ = (l.reverse.dropWhile Char.isWhitespace).reverse ++ s.reverse := by
        rw [List.reverse_append]

/-- Helper: a trimmed string's head is not whitespace. -/
theorem trimChars_head (cs : List Char) (c : Char)
    (h : (trimChars cs).head? = some c) : c.isWhitespace = false := by
  obtain ⟨t, ht⟩ := rtrim_keeps_initial (ltrim cs)
  have h1 : (ltrim cs).head? = some c := by
    rw [ht]
    cases hr : rtrim (ltrim cs) with
    | nil =>
      have : trimChars cs = [] := hr
      rw [this] at h
      simp at h
    | cons x xs =>
      have hx : x = c := by
        have : trimChars cs = x :: xs := hr
        rw [this] at h
        simpa using h
      simp [hx]
  exact head?_dropWhile_false Char.isWhitespace cs c h1

/-- Helper: a trimmed string's last character is not whitespace. -/
theorem rtrim_getLast (l : List Char) (c : Char)
    (h : (rtrim l).getLast? = some c) : c.isWhitespace = false := by
  unfold rtrim at h
  rw [List.getLast?_reverse] at h
  exact head?_dropWhile_false Char.isWhitespace l.reverse c h

/-- Helper: JS `trim` is idempotent. -/
theorem trimChars_idem (l : List Char) : trimChars (trimChars l) = trimChars l := by
  by_cases hn : trimChars l = []
  · rw [hn]
    rfl
  · obtain ⟨a, xs, htn⟩ := List.exists_cons_of_ne_nil hn
    have hhead : (trimChars l).head? = some a := by rw [htn]; rfl
    have ha : a.isWhitespace = false := trimChars_head l a hhead
    have hl : ltrim (trimChars l) = trimChars l := by
      apply dropWhile_eq_self_of_head
      intro c hc
      rw [hhead] at hc
      simp only [Option.some.injEq] at hc
      rw [← hc]
      exact ha
    have hglast : ∀ c, (trimChars l).getLast? = some c → c.isWhitespace = false := by
      intro c hc
      exact rtrim_getLast (ltrim l) c hc
    have hr : rtrim (trimChars l) = trimChars l := by
      unfold rtrim
      rw [dropWhile_eq_self_of_head Char.isWhitespace (trimChars l).reverse,
        List.reverse_reverse]
      intro c hc
      rw [List.head?_reverse] at hc
      exact hglast c hc
    calc trimChars (trimChars l) = rtrim (ltrim (trimChars l)) := rfl
      _ = rtrim (trimChars l) := by rw [hl]
      _ = trimChars l := hr

/-- Helper: the properties of the parsed keyword list. -/
theorem keywordsOfText_spec (t : String) :
    (keywordsOfText t).length ≤ 5 ∧
    ∀ k ∈ keywordsOfText t, k ≠ "" ∧ trimStr k = k ∧
      ∃ c ∈ k.data, c.isWhitespace = false := by
  constructor
  · unfold keywordsOfText
    rw [List.length_take]
    exact min_le_left _ _
  · intro k hk
    unfold keywordsOfText at hk
    have hk1 := List.mem_of_mem_take hk
    rw [List.mem_filter] at hk1
    obtain ⟨hmem, hlen⟩ := hk1
    rw [List.mem_map] at hmem
    obtain ⟨cs, -, hcs⟩ := hmem
    have hlen' : k.length ≠ 0 := by simpa using hlen
    have hdata : k.data = trimChars cs := by rw [← hcs]
    refine ⟨?_, ?_, ?_⟩
    · intro he
      rw [he] at hlen'
      exact hlen' rfl
    · show trimStr k = k
      unfold trimStr
      rw [hdata, trimChars_idem, ← hdata]
    · have hne : k.data ≠ [] := by
        intro he
        apply hlen'
        show k.data.length = 0
        rw [he]
        rfl
      cases hd : k.data with
      | nil => exact absurd hd hne
      | cons a xs =>
        refine ⟨a, List.mem_cons_self a xs, ?_⟩
        apply trimChars_head cs a
        rw [← hdata, hd]
        rfl

/-- C7: every successful `generateSearchKeywords` result has at most 5
keywords, and each keyword is non-empty, equal to its own trim (i.e. already
trimmed), and contains a non-whitespace character. -/
theorem generateSearchKeywords_cap (query : String) (resp : GenTextResp)
    (kws : List String) (tok : Option Nat)
    (h : generateSearchKeywords query resp = .ok (kws, tok)) :
    kws.length ≤ 5 ∧ ∀ k ∈ kws, k ≠ "" ∧ trimStr k = k ∧
      ∃ c ∈ k.data, c.isWhitespace = false := by
  unfold generateSearchKeywords at h
  cases hs : strTruthy resp.text with
  | false => rw [hs] at h; simp at h
  | true =>
    rw [hs] at h
    simp only [if_true, Except.ok.injEq, Prod.mk.injEq] at h
    rw [← h.1]
    exact keywordsOfText_spec (resp.text.getD "")

/-- C7 witness: a reply with padded lines yields the two trimmed keywords. -/
theorem generateSearchKeywords_cap_witness :
    ( ["刑法", "民法"] : List String).length ≤ 5 ∧
    ∀ k ∈ ( ["刑法", "民法"] : List String), k ≠ "" ∧ trimStr k = k ∧
      ∃ c ∈ k.data, c.isWhitespace = false :=
  generateSearchKeywords_cap "q" ⟨some " 刑法 \n\n 民法 ", some 3⟩
    ["刑法", "民法"] (some 3) (by rfl)

/-- C4: every chunk returned by `searchDocuments` is a stored row whose
similarity is exactly `1 - cosineDistance` to the query embedding, the
sequence is sorted by ascending cosine distance — so similarity scores are
non-increasing across it — and it holds at most `matchCount` chunks. -/
theorem searchDocuments_ordering (cosDist : List ℚ → List ℚ → ℚ)
    (docs : List StoredDoc) (q : List ℚ) (k : Nat) (f : DocMeta → Bool) :
    (∀ x ∈ searchDocuments cosDist docs q k f, ∃ d ∈ docs, f d.metadata = true ∧
      x = ⟨d.id, d.content, d.metadata, 1 - cosDist q d.emb⟩) ∧
    List.Pairwise (fun a b : DocResult => b.similarity ≤ a.similarity)
      (searchDocuments cosDist docs q k f) ∧
    (searchDocuments cosDist docs q k f).length ≤ k := by
  have hsorted : List.Pairwise (fun a b : StoredDoc =>
      cosDist q a.emb ≤ cosDist q b.emb)
      (@List.insertionSort StoredDoc
        (fun a b => cosDist q a.emb ≤ cosDist q b.emb)
        (fun a b => inferInstanceAs (Decidable (cosDist q a.emb ≤ cosDist q b.emb)))
        (docs.filter (fun d => f d.metadata))) := by
    have istot : IsTotal StoredDoc
        (fun a b => cosDist q a.emb ≤ cosDist q b.emb) := ⟨fun a b => le_total _ _⟩
    have itrans : IsTrans StoredDoc
        (fun a b => cosDist q a.emb ≤ cosDist q b.emb) :=
      ⟨fun _ _ _ hab hbc => le_trans hab hbc⟩
    exact @List.sorted_insertionSort StoredDoc
      (fun a b => cosDist q a.emb ≤ cosDist q b.emb)
      (fun a b => inferInstanceAs (Decidable (cosDist q a.emb ≤ cosDist q b.emb)))
      istot itrans _
  refine ⟨?_, ?_, ?_⟩
  · intro x hx
    unfold searchDocuments at hx
    rw [List.mem_map] at hx
    obtain ⟨d, hd, hxd⟩ := hx
    have hd1 := List.mem_of_mem_take hd
    rw [List.mem_insertionSort, List.mem_filter] at hd1
    exact ⟨d, hd1.1, hd1.2, hxd.symm⟩
  · unfold searchDocuments
    rw [List.pairwise_map]
    apply List.Pairwise.imp (fun hab => sub_le_sub_left hab 1)
    exact List.Pairwise.sublist (List.take_sublist k _) hsorted
  · unfold searchDocuments
    rw [List.length_map, List.length_take]
    exact min_le_left _ _

/-- C4 witness: over the two stored documents at distances 2 and 1, the
first returned chunk is document 2 with similarity `1 - 1`. -/
theorem searchDocuments_ordering_witness :
    ∃ d ∈ c4docs, (fun _ => true) d.metadata = true ∧
      (⟨2, "乙", ⟨"L2", "T2", 3, 4⟩, 1 - 1⟩ : DocResult) =
        ⟨d.id, d.content, d.metadata, 1 - c4dist [0] d.emb⟩ :=
  (searchDocuments_ordering c4dist c4docs [0] 5 (fun _ => true)).1 _ (by
    have heq : searchDocuments c4dist c4docs [0] 5 (fun _ => true) =
        [⟨2, "乙", ⟨"L2", "T2", 3, 4⟩, 1 - 1⟩,
         ⟨1, "甲", ⟨"L1", "T1", 1, 2⟩, 1 - 2⟩] := by
      norm_num [searchDocuments, c4docs, c4dist, List.insertionSort,
        List.orderedInsert]
    rw [heq]
    exact List.mem_cons_self _ _)

/-- Helper: cost contribution of a search-named tool call. -/
theorem fcEmbedTokens_cons_search (fc : FunctionCall) (rest : List FunctionCall)
    (h : fc.name = "searchPRCLegalKnowledgeBase") :
    fcEmbedTokens (fc :: rest) = countTokens fc.keywords + fcEmbedTokens rest := by
  unfold fcEmbedTokens
  simp [List.filter_cons, h]

/-- Helper: a tool call with any other name contributes nothing. -/
theorem fcEmbedTokens_cons_other (fc : FunctionCall) (rest : List FunctionCall)
    (h : ¬ fc.name = "searchPRCLegalKnowledgeBase") :
    fcEmbedTokens (fc :: rest) = fcEmbedTokens rest := by
  unfold fcEmbedTokens
  simp [List.filter_cons, h]

/-- Helper: when every embedding call succeeds, `processCalls` succeeds and
adds exactly the heuristic embedding cost of the search-named calls to the
running total. -/
theorem processCalls_ok (ctx : CCtx)
    (hemb : ∀ i, (ctx.embeds i).values.isSome = true) :
    ∀ (fcs : List FunctionCall) (s : LoopSt),
      ∃ s', processCalls ctx fcs s = .ok s' ∧
        s'.total = s.total + fcEmbedTokens fcs := by
  intro fcs
  induction fcs with
  | nil =>
    intro s
    exact ⟨s, rfl, by simp [fcEmbedTokens]⟩
  | cons fc rest ih =>
    intro s
    by_cases hname : fc.name = "searchPRCLegalKnowledgeBase"
    · obtain ⟨v, hv⟩ := Option.isSome_iff_exists.mp (hemb s.embedIdx)
      have hgen : generateEmbedding fc.keywords (ctx.embeds s.embedIdx) =
          .ok (v, countTokens fc.keywords) := by
        unfold generateEmbedding
        rw [hv]
      cases hres : (searchDocuments ctx.cosDist ctx.docs v 20
          (fun _ => true)).isEmpty with
      | true =>
        obtain ⟨s', h1, h2⟩ := ih
          { total := s.total + countTokens fc.keywords,
            docIds := s.docIds,
            embedIdx := s.embedIdx + 1,
            events := (s.events ++ [SEvent.step "正在生成嵌入向量以用於搜尋...",
              SEvent.step "正在搜尋文件..."]) ++
              [SEvent.error "找不到與您的問題相關的法律文件"] }
        refine ⟨s', ?_, ?_⟩
        · show processCalls ctx (fc :: rest) s = .ok s'
          unfold processCalls
          rw [if_pos hname]
          dsimp only
          rw [hgen]
          dsimp only
          rw [hres, if_pos rfl]
          rw [← h1]
          congr 1
          simp [List.append_assoc]
        · rw [h2, fcEmbedTokens_cons_search fc rest hname]
          dsimp only
          omega
      | false =>
        obtain ⟨s', h1, h2⟩ := ih
          { total := s.total + countTokens fc.keywords,
            docIds := s.docIds ++ (searchDocuments ctx.cosDist ctx.docs v 20
              (fun _ => true)).map (fun r => r.id),
            embedIdx := s.embedIdx + 1,
            events := s.events ++ [SEvent.step "正在生成嵌入向量以用於搜尋...",
              SEvent.step "正在搜尋文件..."] }
        refine ⟨s', ?_, ?_⟩
        · show processCalls ctx (fc :: rest) s = .ok s'
          unfold processCalls
          rw [if_pos hname]
          dsimp only
          rw [hgen]
          dsimp only
          rw [hres, if_neg Bool.false_ne_true]
          rw [← h1]
          congr 1
          simp [List.append_assoc]
        · rw [h2, fcEmbedTokens_cons_search fc rest hname]
          dsimp only
          omega
    · obtain ⟨s', h1, h2⟩ := ih s
      refine ⟨s', ?_, ?_⟩
      · show processCalls ctx (fc :: rest) s = .ok s'
        unfold processCalls
        rw [if_neg hname]
        exact h1
      · rw [h2, fcEmbedTokens_cons_other fc rest hname]

/-- Helper: with succeeding embeddings, `processCalls` never throws. -/
theorem processCalls_ne_error (ctx : CCtx)
    (hemb : ∀ i, (ctx.embeds i).values.isSome = true)
    (fcs : List FunctionCall) (s : LoopSt) (e : List SEvent) :
    processCalls ctx fcs s ≠ .error e := by
  intro h
  obtain ⟨s', h1, -⟩ := processCalls_ok ctx hemb fcs s
  rw [h1] at h
  cases h

/-- Helper: while every scripted response requests a tool call, the loop
keeps consuming the script and never reaches a terminal state. -/
theorem consultLoop_stillLooping (ctx : CCtx)
    (hemb : ∀ i, (ctx.embeds i).values.isSome = true) :
    ∀ (rest : List GenResponse) (r : GenResponse) (s : LoopSt),
      r.functionCalls.isSome = true →
      (∀ x ∈ rest, x.functionCalls.isSome = true) →
      ∃ evs, consultLoop ctx r rest s = .stillLooping evs := by
  intro rest
  induction rest with
  | nil =>
    intro r s hr _
    obtain ⟨fcs, hfcs⟩ := Option.isSome_iff_exists.mp hr
    unfold consultLoop
    rw [hfcs]
    dsimp only
    split
    · next e heq => exact absurd heq (processCalls_ne_error ctx hemb _ _ _)
    · next s3 heq => exact ⟨_, rfl⟩
  | cons r2 rest2 ih =>
    intro r s hr hall
    obtain ⟨fcs, hfcs⟩ := Option.isSome_iff_exists.mp hr
    unfold consultLoop
    rw [hfcs]
    dsimp only
    split
    · next e heq => exact absurd heq (processCalls_ne_error ctx hemb _ _ _)
    · next s3 heq =>
      exact ih r2 _ (hall r2 (List.mem_cons_self r2 rest2))
        (fun x hx => hall x (List.mem_cons_of_mem r2 hx))

/-- C1 (code evidence): the consultant route's `while (response.functionCalls)`
loop has no iteration cap and no `ToolLoopExceeded` failure state.  For a
model whose every response requests a tool call, after consuming any finite
number of responses the stream is still inside the loop — it never reaches a
terminal `completed` or `failed` state, i.e. it never terminates. -/
theorem consultant_toolLoop_no_cap (ctx : CCtx) (script : List GenResponse)
    (hemb : ∀ i, (ctx.embeds i).values.isSome = true)
    (hall : ∀ r ∈ script, r.functionCalls.isSome = true) :
    ∃ evs, consultantStream ctx script = .stillLooping evs := by
  cases script with
  | nil => exact ⟨_, rfl⟩
  | cons r0 rest =>
    unfold consultantStream
    exact consultLoop_stillLooping ctx hemb rest r0 _
      (hall r0 (List.mem_cons_self r0 rest))
      (fun x hx => hall x (List.mem_cons_of_mem r0 hx))

/-- C1 witness: three consecutive all-tool-call responses leave the stream
still looping. -/
theorem consultant_toolLoop_no_cap_witness :
    ∃ evs, consultantStream dummyCtx [toolResp, toolResp, toolResp] =
      .stillLooping evs :=
  consultant_toolLoop_no_cap dummyCtx [toolResp, toolResp, toolResp]
    (fun _ => rfl) (by decide)

/-- Helper: a successful `processCalls` adds exactly the heuristic embedding
cost of the search-named calls. -/
theorem processCalls_total (ctx : CCtx) :
    ∀ (fcs : List FunctionCall) (s s' : LoopSt),
      processCalls ctx fcs s = .ok s' →
      s'.total = s.total + fcEmbedTokens fcs := by
  intro fcs
  induction fcs with
  | nil =>
    intro s s' h
    cases h
    simp [fcEmbedTokens]
  | cons fc rest ih =>
    intro s s' h
    by_cases hname : fc.name = "searchPRCLegalKnowledgeBase"
    · unfold processCalls at h
      rw [if_pos hname] at h
      dsimp only at h
      cases hv : (ctx.embeds s.embedIdx).values with
      | none =>
        rw [show generateEmbedding fc.keywords (ctx.embeds s.embedIdx) =
            .error "Failed to generate embedding" from by
          unfold generateEmbedding; rw [hv]] at h
        cases h
      | some v =>
        rw [show generateEmbedding fc.keywords (ctx.embeds s.embedIdx) =
            .ok (v, countTokens fc.keywords) from by
          unfold generateEmbedding; rw [hv]] at h
        dsimp only at h
        rw [fcEmbedTokens_cons_search fc rest hname]
        cases hres : (searchDocuments ctx.cosDist ctx.docs v 20
            (fun _ => true)).isEmpty with
        | true =>
          rw [hres, if_pos rfl] at h
          have := ih _ _ h
          dsimp only at this
          omega
        | false =>
          rw [hres, if_neg Bool.false_ne_true] at h
          have := ih _ _ h
          dsimp only at this
          omega
    · unfold processCalls at h
      rw [if_neg hname] at h
      rw [fcEmbedTokens_cons_other fc rest hname]
      exact ih _ _ h

/-- Helper: `chainTokens` over a cons. -/
theorem chainTokens_cons (x : GenResponse) (l : List GenResponse) :
    chainTokens (x :: l) = iterTokens x + chainTokens l := by
  unfold chainTokens
  simp

/-- Helper: the post-loop tail completes with the surcharged running total
and emits the completion event carrying it, for a credited principal and a
truthy final text. -/
theorem finishTurn_completes (ctx : CCtx) (row : CreditsRow)
    (hcred : lookupCredits ctx.st0 ctx.uid = some row)
    (r : GenResponse) (htext : strTruthy r.text = true) (s : LoopSt) :
    ∃ evs st' cid, finishTurn ctx r s =
        .completed evs (proSurcharge ctx.useProModel s.total) st' s.docIds ∧
      evs.getLast? = some (SEvent.completion cid
        (proSurcharge ctx.useProModel s.total)
        (row.remaining_tokens - (proSurcharge ctx.useProModel s.total : Int))) := by
  unfold finishTurn
  rw [htext, if_pos rfl]
  dsimp only
  obtain ⟨st1, h1, -, -, -, -, -⟩ := updateTokenUsage_spec ctx.st0 ctx.uid
    .consultant ((if ctx.useProModel = true then s.total * 10 else s.total : Nat) : Int)
    row hcred
  rw [h1]
  dsimp only
  split
  · next x cid st2 heq =>
    refine ⟨_, _, cid, rfl, ?_⟩
    rw [List.getLast?_concat]
  · next x heq =>
    refine ⟨_, _, ctx.conversationId.getD ("temp-" ++ ctx.now), rfl, ?_⟩
    rw [List.getLast?_concat]

/-- Helper: `finishTurn_completes` with the running total abstracted and the
document ids existential. -/
theorem finishTurn_completes_abs (ctx : CCtx) (row : CreditsRow)
    (hcred : lookupCredits ctx.st0 ctx.uid = some row)
    (r : GenResponse) (htext : strTruthy r.text = true) (s : LoopSt) (T : Nat)
    (hT : s.total = T) :
    ∃ evs st' dids cid, finishTurn ctx r s =
        .completed evs (proSurcharge ctx.useProModel T) st' dids ∧
      evs.getLast? = some (SEvent.completion cid
        (proSurcharge ctx.useProModel T)
        (row.remaining_tokens - (proSurcharge ctx.useProModel T : Int))) := by
  obtain ⟨evs, st', cid, hA, hB⟩ := finishTurn_completes ctx row hcred r htext s
  rw [hT] at hA hB
  exact ⟨evs, st', s.docIds, cid, hA, hB⟩

/-- Helper: with a tool-calling chain followed by a tool-free, non-empty
final response, the loop terminates in `completed` with the surcharged sum
of every model call's reported usage plus every embedding call's heuristic
count, and the completion event carries that total and the debited balance. -/
theorem consultLoop_completes (ctx : CCtx)
    (hemb : ∀ i, (ctx.embeds i).values.isSome = true)
    (row : CreditsRow) (hcred : lookupCredits ctx.st0 ctx.uid = some row)
    (last : GenResponse) (hlast : last.functionCalls = none)
    (htext : strTruthy last.text = true) :
    ∀ (mids : List GenResponse) (r : GenResponse) (s : LoopSt),
      r.functionCalls.isSome = true →
      (∀ x ∈ mids, x.functionCalls.isSome = true) →
      ∃ evs st' dids cid,
        consultLoop ctx r (mids ++ [last]) s =
          .completed evs (proSurcharge ctx.useProModel
            (s.total + fcEmbedTokens (r.functionCalls.getD []) +
              chainTokens mids + respUsage last)) st' dids ∧
        evs.getLast? = some (SEvent.completion cid
          (proSurcharge ctx.useProModel
            (s.total + fcEmbedTokens (r.functionCalls.getD []) +
              chainTokens mids + respUsage last))
          (row.remaining_tokens - (proSurcharge ctx.useProModel
            (s.total + fcEmbedTokens (r.functionCalls.getD []) +
              chainTokens mids + respUsage last) : Int))) := by
  intro mids
  induction mids with
  | nil =>
    intro r s hr _
    obtain ⟨fcs, hfcs⟩ := Option.isSome_iff_exists.mp hr
    unfold consultLoop
    rw [hfcs]
    simp only [Option.getD_some]
    dsimp only [List.nil_append]
    split
    · next e heq => exact absurd heq (processCalls_ne_error ctx hemb _ _ _)
    · next s3 heq =>
      have htot := processCalls_total ctx fcs _ s3 heq
      rw [apply_ite LoopSt.total] at htot
      dsimp only at htot
      rw [ite_self] at htot
      unfold consultLoop
      rw [hlast]
      dsimp only
      exact finishTurn_completes_abs ctx row hcred last htext _ _ (by
        dsimp only
        rw [htot]
        simp [chainTokens, respUsage])
  | cons r2 mids2 ih =>
    intro r s hr hall
    obtain ⟨fcs, hfcs⟩ := Option.isSome_iff_exists.mp hr
    unfold consultLoop
    rw [hfcs]
    simp only [Option.getD_some]
    dsimp only [List.cons_append]
    split
    · next e heq => exact absurd heq (processCalls_ne_error ctx hemb _ _ _)
    · next s3 heq =>
      have htot := processCalls_total ctx fcs _ s3 heq
      rw [apply_ite LoopSt.total] at htot
      dsimp only at htot
      rw [ite_self] at htot
      have hft : s.total + fcEmbedTokens fcs + chainTokens (r2 :: mids2) +
          respUsage last =
          (s3.total + r2.usage.getD 0) +
            fcEmbedTokens (r2.functionCalls.getD []) + chainTokens mids2 +
            respUsage last := by
        rw [htot, chainTokens_cons]
        unfold iterTokens respUsage
        omega
      rw [hft]
      exact ih r2 _ (hall r2 (List.mem_cons_self r2 mids2))
        (fun x hx => hall x (List.mem_cons_of_mem r2 hx))

/-- C3: for a successfully completed consultant turn — a chain of
tool-calling model responses followed by a tool-free final response with
non-empty text, over a credited principal, with every embedding call
succeeding — the stream ends in `completed` and its final `completion`
event's `tokens_used` equals the sum of the reported usages of all model
calls plus the token counts reported by all embedding calls, multiplied by
10 exactly when the pro tier was used and unchanged otherwise. -/
theorem consultant_completion_tokens (ctx : CCtx) (chain : List GenResponse)
    (last : GenResponse) (row : CreditsRow)
    (hemb : ∀ i, (ctx.embeds i).values.isSome = true)
    (hcred : lookupCredits ctx.st0 ctx.uid = some row)
    (hchain : ∀ x ∈ chain, x.functionCalls.isSome = true)
    (hlast : last.functionCalls = none)
    (htext : strTruthy last.text = true) :
    ∃ evs st' dids cid,
      consultantStream ctx (chain ++ [last]) =
        .completed evs (proSurcharge ctx.useProModel (rawTurnTokens chain last))
          st' dids ∧
      evs.getLast? = some (SEvent.completion cid
        (proSurcharge ctx.useProModel (rawTurnTokens chain last))
        (row.remaining_tokens -
          (proSurcharge ctx.useProModel (rawTurnTokens chain last) : Int))) := by
  cases chain with
  | nil =>
    unfold consultantStream
    dsimp only [List.nil_append]
    unfold consultLoop
    rw [hlast]
    dsimp only
    exact finishTurn_completes_abs ctx row hcred last htext _ _ (by
      dsimp only
      simp [rawTurnTokens, chainTokens, respUsage])
  | cons r0 chain2 =>
    unfold consultantStream
    dsimp only [List.cons_append]
    have h := consultLoop_completes ctx hemb row hcred last hlast htext chain2 r0
      ⟨r0.usage.getD 0, [], 0,
        [SEvent.step "正在處理輸入...", SEvent.step "正在生成回應..."]⟩
      (hchain r0 (List.mem_cons_self r0 chain2))
      (fun x hx => hchain x (List.mem_cons_of_mem r0 hx))
    dsimp only at h
    have hft : rawTurnTokens (r0 :: chain2) last =
        r0.usage.getD 0 + fcEmbedTokens (r0.functionCalls.getD []) +
          chainTokens chain2 + respUsage last := by
      unfold rawTurnTokens
      rw [chainTokens_cons]
      unfold iterTokens respUsage
      omega
    rw [hft]
    exact h

/-- C3 witness: one search tool call (40 reported tokens, keywords costing
`countTokens "關" = 1`) followed by a 60-token final answer on the pro tier. -/
theorem consultant_completion_tokens_witness :
    ∃ evs st' dids cid,
      consultantStream c3ctx ([c3r0] ++ [c3last]) =
        .completed evs
          (proSurcharge c3ctx.useProModel (rawTurnTokens [c3r0] c3last))
          st' dids ∧
      evs.getLast? = some (SEvent.completion cid
        (proSurcharge c3ctx.useProModel (rawTurnTokens [c3r0] c3last))
        ((100 : Int) -
          (proSurcharge c3ctx.useProModel (rawTurnTokens [c3r0] c3last) : Int))) :=
  consultant_completion_tokens c3ctx [c3r0] c3last ⟨200, 100, 100⟩
    (fun _ => rfl) (by decide) (by decide) rfl (by decide)

/-- C9 counterexample: a fully successful qa run in which the keyword call
reports 7 tokens, the answer call reports 5 tokens, and the embedding
provider reports 1000 tokens for its successful call.  The one ledger entry
written debits 13 = 7 + `countTokens "甲 乙"` + 5 tokens: the embedding
contribution is the heuristic `countTokens` of the embedded text (1), not
the provider-reported usage (1000 — the debit would be 1012 were the cost
traceable to reported usage).  So the core does fabricate (heuristically
estimate) the token count of a successful embedding call and bills it,
refuting the claim that heuristic counts are used only for the pre-check. -/
theorem qa_embedding_tokens_fabricated :
    (qaRun c9oracle zeroDist c9docs c9st "u" "問").state.token_usage =
      [⟨"u", FeatureKind.qa, 13⟩] ∧
    c9oracle.kwResp.usage = some 7 ∧
    c9oracle.ansResp.usage = some 5 ∧
    c9oracle.embedResp.reportedTokens = some 1000 ∧
    (13 : Int) = 7 + (countTokens "甲 乙" : Int) + 5 ∧
    countTokens "甲 乙" ≠ 1000 ∧
    (13 : Int) ≠ 7 + 1000 + 5 :=
  ⟨by decide, rfl, rfl, rfl, by decide, by decide, by decide⟩

/-- C9 (amended): the token count a successful `generateEmbedding` call
reports to its callers — and which they accumulate into debited totals — is
always the heuristic `countTokens text`, regardless of what the provider
reported; provider-reported usage is used only by the generation calls. -/
theorem generateEmbedding_heuristic_count (text : String)
    (resp : EmbedProviderResp) (v : List ℚ) (t : Nat)
    (h : generateEmbedding text resp = .ok (v, t)) : t = countTokens text := by
  unfold generateEmbedding at h
  cases hv : resp.values with
  | none =>
    rw [hv] at h
    cases h
  | some w =>
    rw [hv] at h
    simp only [Except.ok.injEq, Prod.mk.injEq] at h
    exact h.2.symm

/-- C9 amended witness: a successful call over a 4-character text carries
token count 1 whatever the provider reported. -/
theorem generateEmbedding_heuristic_count_witness :
    (1 : Nat) = countTokens "abcd" :=
  generateEmbedding_heuristic_count "abcd" ⟨some [1], some 999⟩ [1] 1 (by rfl)

end PrcLaw
